import Mathlib

/-!
Verification of the directory-scaffolding script
`apps/admin-api/scripts/create-structure.py`.

The script fixes a manifest `DIRS` of 26 slash-separated relative paths,
resolves `BASE_DIR = Path(__file__).parent.parent / "src"`, and for each
manifest entry runs `(BASE_DIR / entry).mkdir(parents=True, exist_ok=True)`,
appending `str(full_path.relative_to(BASE_DIR.parent))` to a result list.
Finally it prints one localized summary line with the count and returns
the list.

Embedding choices:
* A filesystem path is a list of segments (`List String`); the abstract
  location `Path(__file__).parent.parent` is a parameter `root`.
* The filesystem state is the set of existing directories and the set of
  existing plain files, kept as lists of paths.
* `mkdir(parents=True, exist_ok=True)` succeeds exactly when no
  (non-empty) prefix of the target path exists as a plain file, and adds
  every missing prefix to the directory set; otherwise it raises, which is
  modelled with `Except`.  On a raise, the state reached so far survives
  (the exception does not roll the filesystem back), so the runner returns
  the state next to the `Except` outcome.
-/

namespace CreateStructure

/-- A filesystem state: which paths exist as directories and which exist as
plain files.  Paths are segment lists rooted at an abstract filesystem root. -/
structure FS where
  dirs : List (List String)
  files : List (List String)
deriving DecidableEq

/-- Splits a list of characters at every slash character, accumulating the
current segment in reverse. -/
def splitSegsAux : List Char → List Char → List String
  | [], acc => [String.mk acc.reverse]
  | c :: cs, acc =>
    if c = '/' then String.mk acc.reverse :: splitSegsAux cs []
    else splitSegsAux cs (c :: acc)

/-- The segments of a slash-separated relative path string, as `pathlib`
parses the right operand of `BASE_DIR / dir_path`.  (Equivalent to
splitting on the slash; written by structural recursion on the character
list so that it evaluates by kernel reduction.) -/
def segs (s : String) : List String := splitSegsAux s.data []

/-- `BASE_DIR = Path(__file__).parent.parent / "src"` from line 6 of the
script; `root` stands for `Path(__file__).parent.parent`. -/
def BASE_DIR (root : List String) : List String := root ++ ["src"]

/-- The fixed manifest `DIRS` from lines 9-43 of the script, verbatim and
in source order. -/
def DIRS : List String := [
    "presentation/controllers",
    "presentation/dtos",
    "presentation/mappers",
    "application/auth/use-cases",
    "application/auth/commands",
    "application/auth/queries",
    "application/auth/dtos",
    "application/users",
    "application/shared/interfaces",
    "application/shared/events",
    "domain/auth/entities",
    "domain/auth/value-objects",
    "domain/auth/services",
    "domain/auth/events",
    "domain/auth/repositories",
    "domain/users",
    "domain/roles",
    "domain/permissions",
    "domain/tenants",
    "domain/shared/events",
    "domain/shared/value-objects",
    "infrastructure/persistence/typeorm/repositories",
    "infrastructure/persistence/typeorm/entities",
    "infrastructure/persistence/mappers",
    "infrastructure/events/handlers",
    "infrastructure/external"]

/-- All non-empty prefixes of a path, shortest first: the chain of
ancestors that `mkdir(parents=True)` walks. -/
def initsNE (p : List String) : List (List String) :=
  (List.range p.length).map (fun i => p.take (i + 1))

/-- `Path.mkdir(parents=True, exist_ok=True)`: fails with an `OSError`
(`FileExistsError` / `NotADirectoryError`) exactly when some component of
the path already exists as a plain file; otherwise creates every missing
ancestor directory and the directory itself, succeeding silently on the
ones that already exist. -/
def mkdirParents (fs : FS) (p : List String) : Except String FS :=
  if (initsNE p).any (fun q => decide (q ∈ fs.files)) then
    Except.error ("OSError")
  else
    Except.ok ⟨fs.dirs ++ (initsNE p).filter (fun q => decide (q ∉ fs.dirs)), fs.files⟩

/-- `Path.relative_to`: the remainder of `p` after the prefix `base`,
raising (`none`) when `base` is not a prefix of `p`. -/
def relative_to (p base : List String) : Option (List String) :=
  if base <+: p then some (p.drop base.length) else none

/-- `str()` of a relative path: its segments joined with slashes. -/
def pathStr (p : List String) : String := String.intercalate ("/") p

/-- `full_path = BASE_DIR / dir_path` from line 49 of the script. -/
def fullPath (root : List String) (e : String) : List String :=
  BASE_DIR root ++ segs e

/-- The `for dir_path in DIRS` loop of `create_dirs` (lines 48-51):
threads the filesystem state and the `created` accumulator through the
remaining manifest entries; an uncaught exception aborts the loop,
leaving the state reached so far. -/
def create_dirs_loop (root : List String) :
    List String → FS → List String → FS × Except String (List String)
  | [], fs, acc => (fs, Except.ok acc)
  | e :: rest, fs, acc =>
    match mkdirParents fs (fullPath root e) with
    | Except.error m => (fs, Except.error m)
    | Except.ok fs2 =>
      match relative_to (fullPath root e) ((BASE_DIR root).dropLast) with
      | none => (fs2, Except.error ("ValueError"))
      | some r => create_dirs_loop root rest fs2 (acc ++ [pathStr r])

/-- `create_dirs` (lines 45-54): runs the loop over `DIRS`; on success it
prints the single summary line `f"成功创建 {len(created)} 个目录"` and
returns `created`; on failure the exception propagates and nothing is
printed.  The result pairs the final filesystem state with either the
error or `(created, stdout lines)`. -/
def create_dirs (root : List String) (fs : FS) :
    FS × Except String (List String × List String) :=
  match (create_dirs_loop root DIRS fs []).2 with
  | Except.error m => ((create_dirs_loop root DIRS fs []).1, Except.error m)
  | Except.ok created =>
    ((create_dirs_loop root DIRS fs []).1,
      Except.ok (created, ["成功创建 " ++ toString created.length ++ " 个目录"]))

/-- The manifest exactly as the specification lists it in §6
("reproduce verbatim"), for comparison with the source's `DIRS`.
Modelled from the spec: the 26 entries of the spec's fixed manifest,
in the spec's order. -/
def specManifest : List String := [
    "presentation/controllers",
    "presentation/dtos",
    "presentation/mappers",
    "application/auth/use-cases",
    "application/auth/commands",
    "application/auth/queries",
    "application/auth/dtos",
    "application/users",
    "application/shared/interfaces",
    "application/shared/events",
    "domain/auth/entities",
    "domain/auth/value-objects",
    "domain/auth/services",
    "domain/auth/events",
    "domain/auth/repositories",
    "domain/users",
    "domain/roles",
    "domain/permissions",
    "domain/tenants",
    "domain/shared/events",
    "domain/shared/value-objects",
    "infrastructure/persistence/typeorm/repositories",
    "infrastructure/persistence/typeorm/entities",
    "infrastructure/persistence/mappers",
    "infrastructure/events/handlers",
    "infrastructure/external"]

/-! ### Basic path lemmas -/

lemma mem_initsNE {q p : List String} : q ∈ initsNE p ↔ q ≠ [] ∧ q <+: p := by
  unfold initsNE
  simp only [List.mem_map, List.mem_range]
  constructor
  · rintro ⟨i, hi, rfl⟩
    constructor
    · have hlen : (p.take (i + 1)).length = i + 1 := by
        rw [List.length_take]; omega
      intro hnil
      rw [hnil] at hlen
      simp at hlen
    · exact ⟨p.drop (i + 1), List.take_append_drop _ _⟩
  · rintro ⟨hne, hpre⟩
    have hlen : q.length ≤ p.length := hpre.length_le
    have hpos : 0 < q.length := List.length_pos.mpr hne
    refine ⟨q.length - 1, by omega, ?_⟩
    have hq : q.length - 1 + 1 = q.length := by omega
    rw [hq]
    exact (List.prefix_iff_eq_take.mp hpre).symm

lemma dropLast_BASE (root : List String) : (BASE_DIR root).dropLast = root := by
  unfold BASE_DIR
  exact List.dropLast_concat

lemma fullPath_eq (root : List String) (e : String) :
    fullPath root e = root ++ ("src" :: segs e) := by
  simp [fullPath, BASE_DIR]

lemma fullPath_ne_nil (root : List String) (e : String) : fullPath root e ≠ [] := by
  rw [fullPath_eq]
  simp

lemma rel_some (root : List String) (e : String) :
    relative_to (fullPath root e) ((BASE_DIR root).dropLast) =
      some ("src" :: segs e) := by
  rw [dropLast_BASE, fullPath_eq]
  unfold relative_to
  rw [if_pos (List.prefix_append root ("src" :: segs e))]
  rw [List.drop_left]

/-! ### mkdir lemmas -/

lemma mkdir_eq_error (fs : FS) (p : List String)
    (h : ∃ q ∈ initsNE p, q ∈ fs.files) :
    mkdirParents fs p = Except.error ("OSError") := by
  have hb : (initsNE p).any (fun q => decide (q ∈ fs.files)) = true := by
    rw [List.any_eq_true]
    obtain ⟨q, hq, hqf⟩ := h
    exact ⟨q, hq, by simpa using hqf⟩
  unfold mkdirParents
  rw [if_pos hb]

lemma mkdir_eq_ok (fs : FS) (p : List String)
    (h : ∀ q ∈ initsNE p, q ∉ fs.files) :
    mkdirParents fs p =
      Except.ok ⟨fs.dirs ++ (initsNE p).filter (fun q => decide (q ∉ fs.dirs)),
        fs.files⟩ := by
  have hc : ¬((initsNE p).any (fun q => decide (q ∈ fs.files)) = true) := by
    rw [List.any_eq_true]
    rintro ⟨q, hq, hqf⟩
    exact h q hq (by simpa using hqf)
  unfold mkdirParents
  rw [if_neg hc]

lemma mkdir_ok_inv {fs : FS} {p : List String} {fs2 : FS}
    (h : mkdirParents fs p = Except.ok fs2) :
    (∀ q ∈ initsNE p, q ∉ fs.files) ∧
    fs2 = ⟨fs.dirs ++ (initsNE p).filter (fun q => decide (q ∉ fs.dirs)),
      fs.files⟩ := by
  by_cases hc : ∀ q ∈ initsNE p, q ∉ fs.files
  · rw [mkdir_eq_ok fs p hc] at h
    injection h with h2
    exact ⟨hc, h2.symm⟩
  · push_neg at hc
    rw [mkdir_eq_error fs p hc] at h
    simp at h

lemma mkdir_error_inv {fs : FS} {p : List String} {m : String}
    (h : mkdirParents fs p = Except.error m) :
    (∃ q ∈ initsNE p, q ∈ fs.files) ∧ m = "OSError" := by
  by_cases hc : ∀ q ∈ initsNE p, q ∉ fs.files
  · rw [mkdir_eq_ok fs p hc] at h
    simp at h
  · push_neg at hc
    rw [mkdir_eq_error fs p hc] at h
    injection h with h2
    exact ⟨hc, h2.symm⟩

lemma mkdir_dirs_iff {fs : FS} {p : List String} {fs2 : FS}
    (h : mkdirParents fs p = Except.ok fs2) (q : List String) :
    q ∈ fs2.dirs ↔ q ∈ fs.dirs ∨ q ∈ initsNE p := by
  obtain ⟨-, rfl⟩ := mkdir_ok_inv h
  simp only [List.mem_append, List.mem_filter, decide_eq_true_eq]
  tauto

lemma mkdir_noop {fs : FS} {p : List String}
    (h1 : ∀ q ∈ initsNE p, q ∈ fs.dirs)
    (h2 : ∀ q ∈ initsNE p, q ∉ fs.files) :
    mkdirParents fs p = Except.ok fs := by
  rw [mkdir_eq_ok fs p h2]
  have hfil : (initsNE p).filter (fun q => decide (q ∉ fs.dirs)) = [] := by
    rw [List.filter_eq_nil_iff]
    intro a ha
    simp [h1 a ha]
  rw [hfil, List.append_nil]

/-! ### Loop lemmas -/

lemma loop_cons_error {root : List String} {e : String} {rest : List String}
    {fs : FS} {acc : List String} {m : String}
    (hm : mkdirParents fs (fullPath root e) = Except.error m) :
    create_dirs_loop root (e :: rest) fs acc = (fs, Except.error m) := by
  simp [create_dirs_loop, hm]

lemma loop_cons_ok {root : List String} {e : String} {rest : List String}
    {fs : FS} {acc : List String} {fs2 : FS}
    (hm : mkdirParents fs (fullPath root e) = Except.ok fs2) :
    create_dirs_loop root (e :: rest) fs acc =
      create_dirs_loop root rest fs2 (acc ++ [pathStr ("src" :: segs e)]) := by
  simp [create_dirs_loop, hm, rel_some]

lemma loop_ok_inv (root : List String) :
    ∀ (ds : List String) (fs : FS) (acc : List String) (fs2 : FS) (cr : List String),
      create_dirs_loop root ds fs acc = (fs2, Except.ok cr) →
      cr = acc ++ ds.map (fun e => pathStr ("src" :: segs e)) ∧
      fs2.files = fs.files ∧
      (∀ e ∈ ds, ∀ q ∈ initsNE (fullPath root e), q ∉ fs.files) ∧
      (∀ q, q ∈ fs2.dirs ↔ q ∈ fs.dirs ∨ ∃ e ∈ ds, q ∈ initsNE (fullPath root e)) := by
  intro ds
  induction ds with
  | nil =>
    intro fs acc fs2 cr h
    simp only [create_dirs_loop, Prod.mk.injEq, Except.ok.injEq] at h
    obtain ⟨rfl, rfl⟩ := h
    refine ⟨by simp, rfl, by simp, ?_⟩
    intro q
    simp
  | cons e rest ih =>
    intro fs acc fs2 cr h
    rcases hm : mkdirParents fs (fullPath root e) with m | fsm
    · rw [loop_cons_error hm] at h
      simp at h
    · rw [loop_cons_ok hm] at h
      obtain ⟨hcr, hfiles, hnof, hdirs⟩ := ih fsm _ fs2 cr h
      obtain ⟨hnofe, hfsm⟩ := mkdir_ok_inv hm
      have hfm : fsm.files = fs.files := by rw [hfsm]
      refine ⟨?_, by rw [hfiles, hfm], ?_, ?_⟩
      · rw [hcr]
        simp
      · intro e2 he2 q hq
        rcases List.mem_cons.mp he2 with rfl | hrest
        · exact hnofe q hq
        · have hq2 := hnof e2 hrest q hq
          rw [hfm] at hq2
          exact hq2
      · intro q
        rw [hdirs q, mkdir_dirs_iff hm q]
        constructor
        · rintro ((hq | hq) | ⟨e2, he2, hq⟩)
          · exact Or.inl hq
          · exact Or.inr ⟨e, List.mem_cons_self e rest, hq⟩
          · exact Or.inr ⟨e2, List.mem_cons_of_mem e he2, hq⟩
        · rintro (hq | ⟨e2, he2, hq⟩)
          · exact Or.inl (Or.inl hq)
          · rcases List.mem_cons.mp he2 with rfl | hrest
            · exact Or.inl (Or.inr hq)
            · exact Or.inr ⟨e2, hrest, hq⟩

lemma loop_error_inv (root : List String) :
    ∀ (ds : List String) (fs : FS) (acc : List String) (fs2 : FS) (m : String),
      create_dirs_loop root ds fs acc = (fs2, Except.error m) →
      fs2.files = fs.files ∧
      (∀ q, q ∈ fs.dirs → q ∈ fs2.dirs) ∧
      ∃ pre bad post, ds = pre ++ bad :: post ∧
        (∀ e ∈ pre, ∀ q ∈ initsNE (fullPath root e), q ∈ fs2.dirs) ∧
        ∃ q ∈ initsNE (fullPath root bad), q ∈ fs.files := by
  intro ds
  induction ds with
  | nil =>
    intro fs acc fs2 m h
    simp [create_dirs_loop, Prod.ext_iff] at h
  | cons e rest ih =>
    intro fs acc fs2 m h
    rcases hm : mkdirParents fs (fullPath root e) with me | fsm
    · rw [loop_cons_error hm] at h
      injection h with h1 h2
      injection h2 with h3
      subst h1
      subst h3
      exact ⟨rfl, fun q hq => hq, [], e, rest, rfl, by simp,
        (mkdir_error_inv hm).1⟩
    · rw [loop_cons_ok hm] at h
      obtain ⟨hfiles, hmono, pre, bad, post, hds, hpre, hbad⟩ := ih fsm _ fs2 m h
      obtain ⟨hnofe, hfsm⟩ := mkdir_ok_inv hm
      have hfm : fsm.files = fs.files := by rw [hfsm]
      refine ⟨by rw [hfiles, hfm], ?_, e :: pre, bad, post, by rw [hds]; rfl, ?_, ?_⟩
      · intro q hq
        exact hmono q ((mkdir_dirs_iff hm q).mpr (Or.inl hq))
      · intro e2 he2 q hq
        rcases List.mem_cons.mp he2 with rfl | hp
        · exact hmono q ((mkdir_dirs_iff hm q).mpr (Or.inr hq))
        · exact hpre e2 hp q hq
      · obtain ⟨q, hq, hqf⟩ := hbad
        rw [hfm] at hqf
        exact ⟨q, hq, hqf⟩

lemma loop_noop (root : List String) :
    ∀ (ds : List String) (fs : FS) (acc : List String),
      (∀ e ∈ ds, ∀ q ∈ initsNE (fullPath root e), q ∈ fs.dirs) →
      (∀ e ∈ ds, ∀ q ∈ initsNE (fullPath root e), q ∉ fs.files) →
      create_dirs_loop root ds fs acc =
        (fs, Except.ok (acc ++ ds.map (fun e => pathStr ("src" :: segs e)))) := by
  intro ds
  induction ds with
  | nil =>
    intro fs acc _ _
    simp [create_dirs_loop]
  | cons e rest ih =>
    intro fs acc h1 h2
    rw [loop_cons_ok (mkdir_noop (h1 e (List.mem_cons_self e rest))
      (h2 e (List.mem_cons_self e rest)))]
    rw [ih fs (acc ++ [pathStr ("src" :: segs e)])
      (fun e2 he2 => h1 e2 (List.mem_cons_of_mem e he2))
      (fun e2 he2 => h2 e2 (List.mem_cons_of_mem e he2))]
    simp

/-! ### Runner lemmas -/

lemma create_dirs_eq_error {root : List String} {fs : FS} {fs3 : FS} {m : String}
    (hl : create_dirs_loop root DIRS fs [] = (fs3, Except.error m)) :
    create_dirs root fs = (fs3, Except.error m) := by
  unfold create_dirs
  rw [hl]

lemma create_dirs_eq_ok {root : List String} {fs : FS} {fs3 : FS} {cr : List String}
    (hl : create_dirs_loop root DIRS fs [] = (fs3, Except.ok cr)) :
    create_dirs root fs =
      (fs3, Except.ok (cr, ["成功创建 " ++ toString cr.length ++ " 个目录"])) := by
  unfold create_dirs
  rw [hl]

lemma create_dirs_ok_inv {root : List String} {fs : FS} {fs2 : FS}
    {cr out : List String}
    (h : create_dirs root fs = (fs2, Except.ok (cr, out))) :
    create_dirs_loop root DIRS fs [] = (fs2, Except.ok cr) ∧
    out = ["成功创建 " ++ toString cr.length ++ " 个目录"] := by
  rcases hl : create_dirs_loop root DIRS fs [] with ⟨fs3, exc⟩
  rcases exc with m | cr2
  · rw [create_dirs_eq_error hl] at h
    simp [Prod.ext_iff] at h
  · rw [create_dirs_eq_ok hl] at h
    injection h with h1 h2
    injection h2 with h2
    injection h2 with h3 h4
    subst h1
    subst h3
    subst h4
    exact ⟨rfl, rfl⟩

lemma create_dirs_error_inv {root : List String} {fs : FS} {fs2 : FS} {m : String}
    (h : create_dirs root fs = (fs2, Except.error m)) :
    create_dirs_loop root DIRS fs [] = (fs2, Except.error m) := by
  rcases hl : create_dirs_loop root DIRS fs [] with ⟨fs3, exc⟩
  rcases exc with m2 | cr2
  · rw [create_dirs_eq_error hl] at h
    injection h with h1 h2
    injection h2 with h3
    subst h1
    subst h3
    rfl
  · rw [create_dirs_eq_ok hl] at h
    simp [Prod.ext_iff] at h

/-! ### Claim theorems -/

/-- Claim C1: after a run of `create_dirs` that completes without raising,
every manifest entry's directory `BASE_DIR/e` exists as a directory in the
final state, and so does every intermediate path segment (every non-empty
prefix of the full path). -/
theorem claim_C1 (root : List String) (fs fs2 : FS) (cr out : List String)
    (h : create_dirs root fs = (fs2, Except.ok (cr, out))) :
    ∀ e ∈ DIRS, fullPath root e ∈ fs2.dirs ∧
      ∀ q ∈ initsNE (fullPath root e), q ∈ fs2.dirs := by
  obtain ⟨hl, -⟩ := create_dirs_ok_inv h
  obtain ⟨-, -, -, hdirs⟩ := loop_ok_inv root DIRS fs [] fs2 cr hl
  intro e he
  have hmem : ∀ q ∈ initsNE (fullPath root e), q ∈ fs2.dirs := by
    intro q hq
    exact (hdirs q).mpr (Or.inr ⟨e, he, hq⟩)
  refine ⟨hmem _ ?_, hmem⟩
  rw [mem_initsNE]
  exact ⟨fullPath_ne_nil root e, List.prefix_refl _⟩

/-- Claim C2: on every successful run, exactly one summary line is printed
and it reports the manifest length 26, regardless of the initial
filesystem state (the line is the script's localized form of
"Successfully created 26 directories"). -/
theorem claim_C2 (root : List String) (fs fs2 : FS) (cr out : List String)
    (h : create_dirs root fs = (fs2, Except.ok (cr, out))) :
    out = ["成功创建 26 个目录"] ∧ cr.length = 26 ∧ DIRS.length = 26 := by
  obtain ⟨hl, hout⟩ := create_dirs_ok_inv h
  obtain ⟨hcr, -, -, -⟩ := loop_ok_inv root DIRS fs [] fs2 cr hl
  have hlen : cr.length = 26 := by
    rw [hcr]
    rfl
  refine ⟨?_, hlen, rfl⟩
  rw [hout, hlen]
  decide

/-- Claim C3: the returned sequence has the same length and order as the
manifest; its i-th element is the i-th entry's full path made relative to
one level above the base directory (`BASE_DIR.parent`), whose segments
are `"src" :: segs e`, rendered with slashes. -/
theorem claim_C3 (root : List String) (fs fs2 : FS) (cr out : List String)
    (h : create_dirs root fs = (fs2, Except.ok (cr, out))) :
    cr = DIRS.map (fun e => pathStr ("src" :: segs e)) ∧
    ∀ e ∈ DIRS,
      relative_to (fullPath root e) ((BASE_DIR root).dropLast) =
        some ("src" :: segs e) := by
  obtain ⟨hl, -⟩ := create_dirs_ok_inv h
  obtain ⟨hcr, -, -, -⟩ := loop_ok_inv root DIRS fs [] fs2 cr hl
  constructor
  · rw [hcr]
    rfl
  · intro e _
    exact rel_some root e

/-- Claim C4: the scaffolder is idempotent.  If a run from `fs` succeeds
with final state `fs1`, created list `cr` and output `out`, then a second
run from `fs1` succeeds, leaves the state exactly `fs1`, and reports the
same created list and the same summary line. -/
theorem claim_C4 (root : List String) (fs fs1 : FS) (cr out : List String)
    (h : create_dirs root fs = (fs1, Except.ok (cr, out))) :
    create_dirs root fs1 = (fs1, Except.ok (cr, out)) := by
  obtain ⟨hl, hout⟩ := create_dirs_ok_inv h
  obtain ⟨hcr, hfiles, hnof, hdirs⟩ := loop_ok_inv root DIRS fs [] fs1 cr hl
  have h1 : ∀ e ∈ DIRS, ∀ q ∈ initsNE (fullPath root e), q ∈ fs1.dirs := by
    intro e he q hq
    exact (hdirs q).mpr (Or.inr ⟨e, he, hq⟩)
  have h2 : ∀ e ∈ DIRS, ∀ q ∈ initsNE (fullPath root e), q ∉ fs1.files := by
    intro e he q hq
    rw [hfiles]
    exact hnof e he q hq
  rw [create_dirs_eq_ok (loop_noop root DIRS fs1 [] h1 h2), hout, hcr]

/-- Claim C5: an error during directory creation is not caught.  The run
aborts at the first failing entry: the manifest splits as
`pre ++ bad :: post` where every directory of the `pre` entries exists in
the final state (no rollback), entry `bad` has a path component existing
as a plain file, pre-existing directories survive, files are untouched,
and no success summary is produced. -/
theorem claim_C5 (root : List String) (fs fs2 : FS) (m : String)
    (h : create_dirs root fs = (fs2, Except.error m)) :
    fs2.files = fs.files ∧
    (∀ q, q ∈ fs.dirs → q ∈ fs2.dirs) ∧
    (∀ cr out, (create_dirs root fs).2 ≠ Except.ok (cr, out)) ∧
    ∃ pre bad post, DIRS = pre ++ bad :: post ∧
      (∀ e ∈ pre, ∀ q ∈ initsNE (fullPath root e), q ∈ fs2.dirs) ∧
      ∃ q ∈ initsNE (fullPath root bad), q ∈ fs.files := by
  obtain ⟨hfiles, hmono, hsplit⟩ :=
    loop_error_inv root DIRS fs [] fs2 m (create_dirs_error_inv h)
  refine ⟨hfiles, hmono, ?_, hsplit⟩
  intro cr out hok
  rw [h] at hok
  simp at hok

/-- Claim C6: if `base_directory/presentation` exists as a plain file
before the run, the scaffolder fails with a filesystem error (the very
first manifest entry's `mkdir` raises) and the success summary is not
printed. -/
theorem claim_C6 (root : List String) (fs : FS)
    (hfile : BASE_DIR root ++ ["presentation"] ∈ fs.files) :
    (create_dirs root fs).2 = Except.error ("OSError") ∧
    ∀ cr out, (create_dirs root fs).2 ≠ Except.ok (cr, out) := by
  have hseg : segs ("presentation/controllers") = ["presentation", "controllers"] := rfl
  have hpre : BASE_DIR root ++ ["presentation"] ∈
      initsNE (fullPath root ("presentation/controllers")) := by
    rw [mem_initsNE]
    constructor
    · have hlen : (BASE_DIR root ++ ["presentation"]).length = root.length + 2 := by
        simp [BASE_DIR]
      intro hnil
      rw [hnil] at hlen
      simp at hlen
    · exact ⟨["controllers"], by simp [fullPath, BASE_DIR, hseg]⟩
  have hm : mkdirParents fs (fullPath root ("presentation/controllers")) =
      Except.error ("OSError") :=
    mkdir_eq_error fs _ ⟨_, hpre, hfile⟩
  have hloop : create_dirs_loop root DIRS fs [] = (fs, Except.error ("OSError")) := by
    show create_dirs_loop root (("presentation/controllers") :: DIRS.tail) fs [] = _
    rw [loop_cons_error hm]
  constructor
  · rw [create_dirs_eq_error hloop]
  · intro cr out hok
    rw [create_dirs_eq_error hloop] at hok
    simp at hok

/-- Claim C7: the final filesystem state of a successful run does not
depend on the manifest's iteration order.  For any permutation `ds2` of
`DIRS`, the loop run on `ds2` from the same initial state also succeeds,
produces a directory set with exactly the same members, the same files,
and records one path per entry of `ds2`. -/
theorem claim_C7 (root : List String) (fs fs1 : FS) (cr out : List String)
    (ds2 : List String) (hperm : DIRS.Perm ds2)
    (h : create_dirs root fs = (fs1, Except.ok (cr, out))) :
    (create_dirs_loop root ds2 fs []).2 =
      Except.ok (ds2.map (fun e => pathStr ("src" :: segs e))) ∧
    (∀ q, q ∈ (create_dirs_loop root ds2 fs []).1.dirs ↔ q ∈ fs1.dirs) ∧
    (create_dirs_loop root ds2 fs []).1.files = fs1.files := by
  obtain ⟨hl, -⟩ := create_dirs_ok_inv h
  obtain ⟨hcr, hfiles, hnof, hdirs⟩ := loop_ok_inv root DIRS fs [] fs1 cr hl
  have hnof2 : ∀ e ∈ ds2, ∀ q ∈ initsNE (fullPath root e), q ∉ fs.files := by
    intro e he
    exact hnof e (hperm.mem_iff.mpr he)
  obtain ⟨fs2, cr2, hres⟩ :
      ∃ fs2 cr2, create_dirs_loop root ds2 fs [] = (fs2, Except.ok cr2) := by
    rcases hr : create_dirs_loop root ds2 fs [] with ⟨fs2, exc⟩
    rcases exc with m | cr2
    · exfalso
      obtain ⟨-, -, pre, bad, post, hds, -, q, hq, hqf⟩ :=
        loop_error_inv root ds2 fs [] fs2 m hr
      exact hnof2 bad
        (by rw [hds]; exact List.mem_append_right _ (List.mem_cons_self _ _))
        q hq hqf
    · exact ⟨fs2, cr2, rfl⟩
  obtain ⟨hcr2, hfiles2, -, hdirs2⟩ := loop_ok_inv root ds2 fs [] fs2 cr2 hres
  rw [hres]
  refine ⟨?_, ?_, ?_⟩
  · rw [hcr2]
    rfl
  · intro q
    rw [hdirs q]
    show q ∈ fs2.dirs ↔ _
    rw [hdirs2 q]
    constructor
    · rintro (hq | ⟨e, he, hq⟩)
      · exact Or.inl hq
      · exact Or.inr ⟨e, hperm.mem_iff.mpr he, hq⟩
    · rintro (hq | ⟨e, he, hq⟩)
      · exact Or.inl hq
      · exact Or.inr ⟨e, hperm.mem_iff.mp he, hq⟩
  · show fs2.files = _
    rw [hfiles2, hfiles]

/-- Claim C8: the scaffolder never deletes or modifies existing
filesystem entries: whatever the outcome, the set of plain files is
unchanged and every pre-existing directory is still a directory
afterwards; the only effect is adding directories. -/
theorem claim_C8 (root : List String) (fs : FS) :
    (create_dirs root fs).1.files = fs.files ∧
    ∀ q, q ∈ fs.dirs → q ∈ (create_dirs root fs).1.dirs := by
  rcases hres : create_dirs_loop root DIRS fs [] with ⟨fs2, exc⟩
  rcases exc with m | cr
  · rw [create_dirs_eq_error hres]
    obtain ⟨hfiles, hmono, -⟩ := loop_error_inv root DIRS fs [] fs2 m hres
    exact ⟨hfiles, hmono⟩
  · rw [create_dirs_eq_ok hres]
    obtain ⟨-, hfiles, -, hdirs⟩ := loop_ok_inv root DIRS fs [] fs2 cr hres
    exact ⟨hfiles, fun q hq => (hdirs q).mpr (Or.inl hq)⟩

/-- Claim C9: the base directory is `root ++ ["src"]` where `root` is the
directory one level above the script's location, resolved once; the
manifest equals the 26 entries listed verbatim (and in order) in the
specification; and, provided the script's own location exists (every
ancestor of `root` is a directory), every directory the run adds lies
under the base directory along some manifest entry's path. -/
theorem claim_C9 (root : List String) (fs fs2 : FS) (cr out : List String)
    (hroot : ∀ q ∈ initsNE root, q ∈ fs.dirs)
    (h : create_dirs root fs = (fs2, Except.ok (cr, out))) :
    BASE_DIR root = root ++ ["src"] ∧
    DIRS = specManifest ∧
    DIRS.length = 26 ∧
    ∀ q, q ∈ fs2.dirs → q ∉ fs.dirs →
      ∃ e ∈ DIRS, q <+: fullPath root e ∧ BASE_DIR root <+: q := by
  obtain ⟨hl, -⟩ := create_dirs_ok_inv h
  obtain ⟨-, -, -, hdirs⟩ := loop_ok_inv root DIRS fs [] fs2 cr hl
  refine ⟨rfl, rfl, rfl, ?_⟩
  intro q hq hnq
  rcases (hdirs q).mp hq with hq2 | ⟨e, he, hq2⟩
  · exact absurd hq2 hnq
  · obtain ⟨hne, hpre⟩ := mem_initsNE.mp hq2
    refine ⟨e, he, hpre, ?_⟩
    have hroot_pre : root <+: fullPath root e := by
      rw [fullPath_eq]
      exact List.prefix_append _ _
    by_cases hlen : q.length ≤ root.length
    · exfalso
      have hq_root : q <+: root :=
        List.prefix_of_prefix_length_le hpre hroot_pre hlen
      exact hnq (hroot q (mem_initsNE.mpr ⟨hne, hq_root⟩))
    · push_neg at hlen
      have hblen : (BASE_DIR root).length = root.length + 1 := by
        simp [BASE_DIR]
      refine List.prefix_of_prefix_length_le (List.prefix_append _ _) hpre ?_
      rw [hblen]
      omega

/-- Claim C10, as amended: every manifest entry is a non-empty relative
path with no empty segment (hence no absolute prefix) and no
parent-traversal segment `..`; all 26 entries are pairwise distinct, so
the 26 recorded result paths are pairwise distinct; every manifest target
directory `BASE_DIR/e` lies strictly inside the base directory; and every
directory the run adds either lies strictly inside the base directory or
is the base directory itself or one of its ancestors, created as a
missing intermediate (so no created directory ever escapes sideways or
above the chain leading to the base directory). -/
theorem claim_C10 (root : List String) (fs fs2 : FS) (cr out : List String)
    (h : create_dirs root fs = (fs2, Except.ok (cr, out))) :
    (∀ e ∈ DIRS, e ≠ "" ∧ "" ∉ segs e ∧ ".." ∉ segs e) ∧
    DIRS.Nodup ∧
    cr.Nodup ∧
    cr.length = 26 ∧
    (∀ e ∈ DIRS,
      BASE_DIR root <+: fullPath root e ∧ fullPath root e ≠ BASE_DIR root) ∧
    ∀ q, q ∈ fs2.dirs → q ∉ fs.dirs →
      (BASE_DIR root <+: q ∧ q ≠ BASE_DIR root) ∨ q <+: BASE_DIR root := by
  obtain ⟨hl, -⟩ := create_dirs_ok_inv h
  obtain ⟨hcr, -, -, hdirs⟩ := loop_ok_inv root DIRS fs [] fs2 cr hl
  refine ⟨by decide, by decide, ?_, ?_, ?_, ?_⟩
  · rw [hcr]
    decide
  · rw [hcr]
    rfl
  · intro e he
    have hse : segs e ≠ [] := (by decide : ∀ e2 ∈ DIRS, segs e2 ≠ []) e he
    refine ⟨List.prefix_append _ _, ?_⟩
    intro heq
    have hlen : (BASE_DIR root).length + (segs e).length = (BASE_DIR root).length := by
      have hl2 := congrArg List.length heq
      simpa [fullPath, List.length_append] using hl2
    exact hse (List.length_eq_zero.mp (by omega))
  · intro q hq hnq
    rcases (hdirs q).mp hq with hq2 | ⟨e, he, hq2⟩
    · exact absurd hq2 hnq
    · obtain ⟨hne, hpre⟩ := mem_initsNE.mp hq2
      have hbase_pre : BASE_DIR root <+: fullPath root e := List.prefix_append _ _
      by_cases hlen : q.length ≤ (BASE_DIR root).length
      · exact Or.inr (List.prefix_of_prefix_length_le hpre hbase_pre hlen)
      · push_neg at hlen
        refine Or.inl
          ⟨List.prefix_of_prefix_length_le hbase_pre hpre (le_of_lt hlen), ?_⟩
        intro heq
        rw [heq] at hlen
        omega

/-! ### Concrete runs for the witnesses -/

/-- An empty filesystem. -/
def fs0 : FS := ⟨[], []⟩

/-- The run of the scaffolder from the empty filesystem, with the
script's grandparent directory taken as the filesystem root. -/
def res0 : FS × Except String (List String × List String) := create_dirs [] fs0

/-- Final state of the run `res0`. -/
def fsF : FS := res0.1

/-- Created list of the run `res0`. -/
def crF : List String := match res0.2 with
  | Except.ok co => co.1
  | Except.error _ => []

/-- Stdout lines of the run `res0`. -/
def outF : List String := match res0.2 with
  | Except.ok co => co.2
  | Except.error _ => []

/-- A filesystem holding only the directory `r`, the location of the
(virtual) script's project. -/
def fs1r : FS := ⟨[["r"]], []⟩

/-- The run of the scaffolder from `fs1r` with root `r`. -/
def res1 : FS × Except String (List String × List String) := create_dirs ["r"] fs1r

/-- Final state of the run `res1`. -/
def fs1F : FS := res1.1

/-- Created list of the run `res1`. -/
def cr1F : List String := match res1.2 with
  | Except.ok co => co.1
  | Except.error _ => []

/-- Stdout lines of the run `res1`. -/
def out1F : List String := match res1.2 with
  | Except.ok co => co.2
  | Except.error _ => []

/-- A filesystem where the base directory `r/src` and its ancestor `r`
already exist. -/
def fsWC : FS := ⟨[["r"], ["r", "src"]], []⟩

/-- The run of the scaffolder from `fsWC` with root `r`. -/
def res2 : FS × Except String (List String × List String) := create_dirs ["r"] fsWC

/-- Final state of the run `res2`. -/
def fs2F : FS := res2.1

/-- Created list of the run `res2`. -/
def cr2F : List String := match res2.2 with
  | Except.ok co => co.1
  | Except.error _ => []

/-- Stdout lines of the run `res2`. -/
def out2F : List String := match res2.2 with
  | Except.ok co => co.2
  | Except.error _ => []

/-- A filesystem where `src/presentation` exists as a plain file, which
makes the very first manifest entry's `mkdir` fail. -/
def fsE : FS := ⟨[], [["src", "presentation"]]⟩

/-- A filesystem with one unrelated directory and one unrelated file,
used to exercise the frame property. -/
def fsW8 : FS := ⟨[["x"]], [["y"]]⟩

/-! ### Witnesses -/

/-- Witness for C1 at the empty filesystem: the manifest entry
`domain/auth/entities` ends up as a directory of the final state. -/
theorem claim_C1_witness : fullPath [] ("domain/auth/entities") ∈ fsF.dirs :=
  (claim_C1 [] fs0 fsF crF outF rfl ("domain/auth/entities") (by decide)).1

/-- Witness for C2 at the empty filesystem: the summary line and the
count 26. -/
theorem claim_C2_witness :
    outF = ["成功创建 26 个目录"] ∧ crF.length = 26 ∧ DIRS.length = 26 :=
  claim_C2 [] fs0 fsF crF outF rfl

/-- Witness for C3 at the empty filesystem: the created list is the
manifest mapped to base-parent-relative path strings. -/
theorem claim_C3_witness :
    crF = DIRS.map (fun e => pathStr ("src" :: segs e)) :=
  (claim_C3 [] fs0 fsF crF outF rfl).1

/-- Witness for C4: rerunning from the final state of the successful
empty-filesystem run reproduces state and output exactly. -/
theorem claim_C4_witness : create_dirs [] fsF = (fsF, Except.ok (crF, outF)) :=
  claim_C4 [] fs0 fsF crF outF rfl

/-- Witness for C5 at a filesystem where `src/presentation` is a plain
file: the run does not produce a success result, and files survive. -/
theorem claim_C5_witness :
    fsE.files = fsE.files ∧ (create_dirs [] fsE).2 ≠ Except.ok ([], []) :=
  ⟨(claim_C5 [] fsE fsE ("OSError") rfl).1,
    (claim_C5 [] fsE fsE ("OSError") rfl).2.2.1 [] []⟩

/-- Witness for C6 at the same failing filesystem: the run errors. -/
theorem claim_C6_witness : (create_dirs [] fsE).2 = Except.error ("OSError") :=
  (claim_C6 [] fsE (by decide)).1

/-- Witness for C7 with the reversed manifest: the reversed run succeeds
with one recorded path per entry and reaches a state with the same
files. -/
theorem claim_C7_witness :
    (create_dirs_loop [] DIRS.reverse fs0 []).2 =
      Except.ok (DIRS.reverse.map (fun e => pathStr ("src" :: segs e))) ∧
    (create_dirs_loop [] DIRS.reverse fs0 []).1.files = fsF.files :=
  ⟨(claim_C7 [] fs0 fsF crF outF DIRS.reverse (DIRS.reverse_perm.symm) rfl).1,
    (claim_C7 [] fs0 fsF crF outF DIRS.reverse (DIRS.reverse_perm.symm) rfl).2.2⟩

/-- Witness for C8: an unrelated pre-existing directory and file survive
a run untouched. -/
theorem claim_C8_witness :
    (create_dirs [] fsW8).1.files = fsW8.files ∧
    ["x"] ∈ (create_dirs [] fsW8).1.dirs :=
  ⟨(claim_C8 [] fsW8).1, (claim_C8 [] fsW8).2 ["x"] (by decide)⟩

/-- Witness for C9 at root `r` with the root directory present: the
resolved base directory and the manifest-versus-spec equalities. -/
theorem claim_C9_witness :
    BASE_DIR ["r"] = ["r"] ++ ["src"] ∧ DIRS = specManifest ∧ DIRS.length = 26 :=
  ⟨(claim_C9 ["r"] fs1r fs1F cr1F out1F (by decide) rfl).1,
    (claim_C9 ["r"] fs1r fs1F cr1F out1F (by decide) rfl).2.1,
    (claim_C9 ["r"] fs1r fs1F cr1F out1F (by decide) rfl).2.2.1⟩

/-- Counterexample to claim C10 as originally stated ("every directory
created by `create_dirs` lies strictly inside `BASE_DIR`"): running from
the empty filesystem (the repository's own state — `apps/admin-api/src`
does not exist in the tree) succeeds and creates the base directory
itself, a created directory that is not strictly inside `BASE_DIR`
because it is `BASE_DIR`. -/
theorem claim_C10_counterexample :
    create_dirs [] fs0 = (fsF, Except.ok (crF, outF)) ∧
    BASE_DIR [] ∈ fsF.dirs ∧
    BASE_DIR [] ∉ fs0.dirs ∧
    ¬(BASE_DIR [] <+: BASE_DIR [] ∧ BASE_DIR [] ≠ BASE_DIR []) := by
  refine ⟨rfl, by decide, by decide, ?_⟩
  rintro ⟨-, hne⟩
  exact hne rfl

/-- Witness for the amended C10 at root `r`: the manifest is
duplicate-free, so are the 26 recorded result paths, and the first
manifest entry's target directory lies strictly inside the base
directory. -/
theorem claim_C10_witness :
    DIRS.Nodup ∧ cr2F.Nodup ∧ cr2F.length = 26 ∧
    (BASE_DIR ["r"] <+: fullPath ["r"] ("presentation/controllers") ∧
      fullPath ["r"] ("presentation/controllers") ≠ BASE_DIR ["r"]) :=
  ⟨(claim_C10 ["r"] fsWC fs2F cr2F out2F rfl).2.1,
    (claim_C10 ["r"] fsWC fs2F cr2F out2F rfl).2.2.1,
    (claim_C10 ["r"] fsWC fs2F cr2F out2F rfl).2.2.2.1,
    (claim_C10 ["r"] fsWC fs2F cr2F out2F rfl).2.2.2.2.1
      ("presentation/controllers") (by decide)⟩

end CreateStructure
